import Mathlib

/-!
# magiskboot: the command-line dispatcher of `core/jni/magiskboot/main.c`

A shallow embedding of `usage` and `main`.  The program is a chain of
`if / else if` tests on `argc` and `argv[1]`; every branch hands its arguments
to one collaborator declared in `magiskboot.h`, `utils.h` or `sha1.h`.

* A C string is the list of its characters before the terminating NUL.
* `argv` is the list of its `argc` strings; `argv[i]` is `argv[i]?`, so reading
  at or beyond `argc` (a null or out-of-bounds pointer used as a string) shows
  as `none` and makes the whole run undefined.
* A collaborator either returns to `main` or ends the process itself with
  `exit`, exactly as `usage` does in this file.
* A run is the list of externally visible calls in program order together with
  the value given to `exit` (or returned from `main`).
-/

namespace MagiskBoot

/-- A NUL-terminated C string, without its terminator. -/
abbrev CStr := List Char

/-- What a call to a collaborator does: come back with a value, or end the
process with `exit(status)` before coming back. -/
inductive Outcome (α : Type) where
  | ret (v : α)
  | exit (status : Int)
  deriving DecidableEq

/-- Compile-time parameters of the translation unit: the macros and tables that
`main.c` takes from `magiskboot.h` and the build flags, and whether plain `char`
is signed on the target ABI (it is on x86, it is not on ARM). -/
structure Build where
  MAGISK_VERSION : CStr
  MAGISK_VER_CODE : CStr
  KERNEL_FILE : CStr
  RAMDISK_FILE : CStr
  SECOND_FILE : CStr
  DTB_FILE : CStr
  EXTRA_FILE : CStr
  NEW_BOOT : CStr
  /-- a NULL-terminated array of method names; `none` is the NULL entry -/
  SUP_LIST : List (Option CStr)
  /-- a NULL-terminated array of file extensions; `none` is the NULL entry -/
  SUP_EXT_LIST : List (Option CStr)
  char_signed : Bool

/-- The functions `main` calls that are defined in other translation units.
Each is a function of its arguments; those that may end the process return an
`Outcome`.  `mmap_ro` yields the bytes of the mapped file, `SHA1` the bytes it
writes into the digest buffer starting at index 0. -/
structure World where
  mmap_ro : CStr → Outcome (List Nat)
  SHA1 : List Nat → List Nat
  parse_img : CStr → Outcome Int
  unpack : CStr → Outcome Unit
  repack : CStr → CStr → Outcome Unit
  decomp_file : CStr → Option CStr → Outcome Unit
  comp_file : CStr → CStr → Option CStr → Outcome Unit
  hexpatch : CStr → CStr → CStr → Outcome Unit
  cpio_commands : CStr → Int → List CStr → Outcome Int
  dtb_commands : CStr → Int → List CStr → Outcome Int

/-- One externally visible step of a run, with the arguments it was given. -/
inductive Event where
  | stderr (text : CStr)
  | stdout (text : CStr)
  | umask (mask : Nat)
  | unlink (path : CStr)
  | mmap_ro (file : CStr)
  | SHA1 (data : List Nat)
  | munmap
  | parse_img (image : CStr)
  | unpack (image : CStr)
  | repack (orig : CStr) (out : CStr)
  | decomp_file (infile : CStr) (outfile : Option CStr)
  | comp_file (method : CStr) (infile : CStr) (outfile : Option CStr)
  | hexpatch (file : CStr) (pattern1 : CStr) (pattern2 : CStr)
  | cpio_commands (cmd : CStr) (argc : Int) (argv : List CStr)
  | dtb_commands (cmd : CStr) (argc : Int) (argv : List CStr)
  deriving DecidableEq

/-- The calls made by a piece of code that ran to the end of the process, and
the status the process ended with. -/
structure Proc where
  trace : List Event
  status : Int
  deriving DecidableEq

/-- A whole run of `main`.  `status = none` marks undefined behaviour: a string
was read from `argv` at or beyond `argc`. -/
structure Run where
  trace : List Event
  status : Option Int
  deriving DecidableEq

/-- The libc `strcmp`; the C standard fixes only the sign of the result. -/
def strcmp : CStr → CStr → Int
  | [], [] => 0
  | [], _ :: _ => -1
  | _ :: _, [] => 1
  | a :: as, b :: bs =>
    if a = b then strcmp as bs else if a.toNat < b.toNat then -1 else 1

/-- The libc `strncmp`: like `strcmp`, over at most `n` characters. -/
def strncmp : CStr → CStr → Nat → Int
  | _, _, 0 => 0
  | [], [], _ + 1 => 0
  | [], _ :: _, _ + 1 => -1
  | _ :: _, [], _ + 1 => 1
  | a :: as, b :: bs, n + 1 =>
    if a = b then strncmp as bs n else if a.toNat < b.toNat then -1 else 1

/-- The libc `strchr` for a character other than NUL: the rest of the string
from the first occurrence of `c` on, or `none` (NULL). -/
def strchr : CStr → Char → Option CStr
  | [], _ => none
  | a :: as, c => if a = c then some (a :: as) else strchr as c

/-- The entries of a NULL-terminated array of strings, as the loops
`for (i = 0; T[i]; ++i)` visit them: everything before the first NULL. -/
def until_null : List (Option CStr) → List CStr
  | some s :: rest => s :: until_null rest
  | _ => []

/-- One lowercase hexadecimal digit. -/
def hex_digit (d : Nat) : Char :=
  if d < 10 then Char.ofNat (48 + d) else Char.ofNat (87 + d)

/-- The hexadecimal digits of `n`, most significant first, no padding;
`fuel` bounds the number of digits. -/
def to_hex : Nat → Nat → CStr
  | 0, _ => []
  | fuel + 1, n =>
    if n < 16 then [hex_digit n] else to_hex fuel (n / 16) ++ [hex_digit (n % 16)]

/-- What `printf("%02x", v)` writes for an `int` argument: `v` is taken as a
32-bit `unsigned int` and printed in lowercase hexadecimal, zero-padded to a
minimum width of 2. -/
def printf_02x (v : Int) : CStr :=
  let digits := to_hex 8 (v % 4294967296).toNat
  List.replicate (2 - digits.length) '0' ++ digits

/-- The value of `sha1[i]` for `char sha1[21]` holding `byte`, after the
integer promotion that passing it to `printf` applies. -/
def char_value (b : Build) (byte : Nat) : Int :=
  if b.char_signed && decide (128 ≤ byte % 256) then (byte % 256 : Int) - 256
  else (byte % 256 : Int)

/-- The value of `method` in the `--compress` branch: the text after the first
`=` of `argv[1]` (`strchr`, then `method++`), or `"gzip"` when there is none. -/
def method_of (a1 : CStr) : CStr :=
  match strchr a1 '=' with
  | none => "gzip".toList
  | some p => p.drop 1

/-- The first line `main` writes to stderr. -/
def banner (b : Build) : CStr :=
  "MagiskBoot v".toList ++ b.MAGISK_VERSION ++ "(".toList ++ b.MAGISK_VER_CODE ++
    ") (by topjohnwu) - Boot Image Modification Tool\n\n".toList

/-- The format string of the first `fprintf` of `usage`, after its `%s`. -/
def usage_actions : String := String.join [
  " <action> [args...]\n",
  "\n",
  "Supported actions:\n",
  " --parse <bootimg>\n",
  "  Parse <bootimg> only, do not unpack. Return value: \n",
  "    0:OK   1:error   2:insufficient boot partition size\n",
  "    3:chromeos   4:ELF32   5:ELF64\n",
  "\n",
  " --unpack <bootimg>\n",
  "  Unpack <bootimg> to kernel, ramdisk.cpio, (second), (dtb), (extra) into\n",
  "  the current directory. Return value is the same as parse command\n",
  "\n",
  " --repack <origbootimg> [outbootimg]\n",
  "  Repack kernel, ramdisk.cpio[.ext], second, dtb... from current directory\n",
  "  to [outbootimg], or new-boot.img if not specified.\n",
  "  It will compress ramdisk.cpio with the same method used in <origbootimg>,\n",
  "  or attempt to find ramdisk.cpio.[ext], and repack directly with the\n",
  "  compressed ramdisk file\n",
  "\n",
  " --hexpatch <file> <hexpattern1> <hexpattern2>\n",
  "  Search <hexpattern1> in <file>, and replace with <hexpattern2>\n",
  "\n",
  " --cpio-<cmd> <incpio> [flags...] [args...]\n",
  "  Do cpio related cmds to <incpio> (modifications are done directly)\n",
  "  Supported commands:\n",
  "    -rm [-r] <entry>\n",
  "      Remove entry from <incpio>, flag [-r] to remove recursively\n",
  "    -mkdir <mode> <entry>\n",
  "      Create directory as an <entry>\n",
  "    -ln <target> <entry>\n",
  "      Create symlink <entry> to point to <target>\n",
  "    -mv <from-entry> <to-entry>\n",
  "      Move <from-entry> to <to-entry>\n",
  "    -add <mode> <entry> <infile>\n",
  "      Add <infile> as an <entry>; replaces <entry> if already exists\n",
  "    -extract [<entry> <outfile>]\n",
  "      Extract <entry> to <outfile>, or extract all to current directory\n",
  "    -test\n",
  "      Return value: 0/stock 1/Magisk 2/other (phh, SuperSU, Xposed)\n",
  "    -patch <KEEPVERITY> <KEEPFORCEENCRYPT>\n",
  "      Patch cpio for Magisk. KEEP**** are boolean values\n",
  "    -backup <origcpio> <HIGH_COMP> [SHA1]\n",
  "      Create ramdisk backups into <incpio> from <origcpio>\n",
  "      HIGH_COMP is a boolean value, toggles high compression mode\n",
  "      SHA1 of stock boot image is optional\n",
  "    -restore\n",
  "      Restore ramdisk from ramdisk backup within <incpio>\n",
  "    -stocksha1\n",
  "      Get stock boot SHA1 recorded within <incpio>\n",
  "\n",
  " --dtb-<cmd> <dtb>\n",
  "  Do dtb related cmds to <dtb> (modifications are done directly)\n",
  "  Supported commands:\n",
  "    -dump\n",
  "      Dump all contents from dtb for debugging\n",
  "    -test\n",
  "      Check if fstab has verity/avb flags\n",
  "      Return value: 0/no flags 1/flag exists",
  "    -patch\n",
  "      Search for fstab and remove verity/avb\n",
  "\n",
  " --compress[=method] <infile> [outfile]\n",
  "  Compress <infile> with [method] (default: gzip), optionally to [outfile]\n",
  "  <infile>/[outfile] can be '-' to be STDIN/STDOUT\n",
  "  Supported methods: "]

/-- The format string of the third `fprintf` of `usage`. -/
def usage_decompress : String := String.join [
  "\n\n",
  " --decompress <infile> [outfile]\n",
  "  Detect method and decompress <infile>, optionally to [outfile]\n",
  "  <infile>/[outfile] can be '-' to be STDIN/STDOUT\n",
  "  Supported methods: "]

/-- The format string of the last `fprintf` of `usage`. -/
def usage_tail : String := String.join [
  "\n\n",
  " --sha1 <file>\n",
  "  Print the SHA1 checksum for <file>\n",
  "\n",
  " --cleanup\n",
  "  Cleanup the current working directory\n",
  "\n"]

/-- The `fprintf(stderr, ...)` calls of `usage(arg0)`, in order. -/
def usage_text (b : Build) (arg0 : CStr) : List Event :=
  [Event.stderr ("Usage: ".toList ++ arg0 ++ usage_actions.toList)]
    ++ (until_null b.SUP_LIST).map (fun m => Event.stderr (m ++ [' ']))
    ++ [Event.stderr usage_decompress.toList]
    ++ (until_null b.SUP_LIST).map (fun m => Event.stderr (m ++ [' ']))
    ++ [Event.stderr usage_tail.toList]

/-- The function `usage`: print the usage text, then `exit(1)`.  It never
returns to its caller. -/
def usage (b : Build) (arg0 : CStr) : Proc :=
  ⟨usage_text b arg0, 1⟩

/-- Call a collaborator that may end the process.  If it exits, the process
ends there with its status; if it returns `v`, the run goes on with `k v`. -/
def call {α : Type} (ev : Event) (o : Outcome α) (k : α → Proc) : Proc :=
  match o with
  | Outcome.exit s => ⟨[ev], s⟩
  | Outcome.ret v => ⟨ev :: (k v).trace, (k v).status⟩

/-- The end of `main`: `return 0;`. -/
def return_0 : Proc := ⟨[], 0⟩

/-- A condition `argc > n && test(argv[i])` with the short-circuit evaluation
of `&&`: `argv[i]` is read only when `argc > n`. -/
def guarded (argv : List CStr) (n i : Nat) (test : CStr → Bool) : Option Bool :=
  if n < argv.length then (argv[i]?).map test else some false

/-- The `if / else if` chain of `main` (lines 109 to 162), from the first test
to `return 0`.  `none` means that some `argv[i]` with `i ≥ argc` was used as a
string.  In the cleanup branch `name` is a buffer of `PATH_MAX` bytes that
`sprintf` fills with `RAMDISK_FILE "." ext`; the names of the header are short
and the model takes the formatted string itself.  In the cpio and dtb branches
`argv[0]` is read once, for the two calls `usage(argv[0])` of the branch. -/
def dispatch (b : Build) (w : World) (argv : List CStr) : Option Proc :=
  let argc : Int := argv.length
  -- line 109: if (argc > 1 && strcmp(argv[1], "--cleanup") == 0)
  match guarded argv 1 1 fun a => decide (strcmp a "--cleanup".toList = 0) with
  | none => none
  | some true =>
    some ⟨[Event.stderr "Cleaning up...\n\n".toList,
           Event.unlink b.KERNEL_FILE,
           Event.unlink b.RAMDISK_FILE,
           Event.unlink (b.RAMDISK_FILE ++ ".raw".toList),
           Event.unlink b.SECOND_FILE,
           Event.unlink b.DTB_FILE,
           Event.unlink b.EXTRA_FILE]
          ++ (until_null b.SUP_EXT_LIST).map
               (fun ext => Event.unlink (b.RAMDISK_FILE ++ ['.'] ++ ext)),
          0⟩
  | some false =>
  -- line 122: else if (argc > 2 && strcmp(argv[1], "--sha1") == 0)
  match guarded argv 2 1 fun a => decide (strcmp a "--sha1".toList = 0) with
  | none => none
  | some true =>
    (argv[2]?).map fun file =>
      call (Event.mmap_ro file) (w.mmap_ro file) fun buf =>
        let sha1 := w.SHA1 buf
        ⟨[Event.SHA1 buf]
          ++ (List.range 20).map
               (fun i => Event.stdout (printf_02x (char_value b (sha1.getD i 0))))
          ++ [Event.stdout ['\n'], Event.munmap],
         0⟩
  | some false =>
  -- line 131: else if (argc > 2 && strcmp(argv[1], "--parse") == 0)
  match guarded argv 2 1 fun a => decide (strcmp a "--parse".toList = 0) with
  | none => none
  | some true =>
    (argv[2]?).map fun image =>
      call (Event.parse_img image) (w.parse_img image) fun ret => ⟨[], ret⟩
  | some false =>
  -- line 134: else if (argc > 2 && strcmp(argv[1], "--unpack") == 0)
  match guarded argv 2 1 fun a => decide (strcmp a "--unpack".toList = 0) with
  | none => none
  | some true =>
    (argv[2]?).map fun image =>
      call (Event.unpack image) (w.unpack image) fun _ => return_0
  | some false =>
  -- line 136: else if (argc > 2 && strcmp(argv[1], "--repack") == 0)
  match guarded argv 2 1 fun a => decide (strcmp a "--repack".toList = 0) with
  | none => none
  | some true =>
    (argv[2]?).bind fun orig =>
    (if argc > 3 then argv[3]? else some b.NEW_BOOT).map fun out =>
      call (Event.repack orig out) (w.repack orig out) fun _ => return_0
  | some false =>
  -- line 138: else if (argc > 2 && strcmp(argv[1], "--decompress") == 0)
  match guarded argv 2 1 fun a => decide (strcmp a "--decompress".toList = 0) with
  | none => none
  | some true =>
    (argv[2]?).bind fun infile =>
    (if argc > 3 then (argv[3]?).map some else some none).map fun outfile =>
      call (Event.decomp_file infile outfile) (w.decomp_file infile outfile)
        fun _ => return_0
  | some false =>
  -- line 140: else if (argc > 2 && strncmp(argv[1], "--compress", 10) == 0)
  match guarded argv 2 1 fun a => decide (strncmp a "--compress".toList 10 = 0) with
  | none => none
  | some true =>
    (argv[1]?).bind fun a1 =>
    let method := method_of a1
    (argv[2]?).bind fun infile =>
    (if argc > 3 then (argv[3]?).map some else some none).map fun outfile =>
      call (Event.comp_file method infile outfile) (w.comp_file method infile outfile)
        fun _ => return_0
  | some false =>
  -- line 146: else if (argc > 4 && strcmp(argv[1], "--hexpatch") == 0)
  match guarded argv 4 1 fun a => decide (strcmp a "--hexpatch".toList = 0) with
  | none => none
  | some true =>
    (argv[2]?).bind fun file =>
    (argv[3]?).bind fun pattern1 =>
    (argv[4]?).map fun pattern2 =>
      call (Event.hexpatch file pattern1 pattern2) (w.hexpatch file pattern1 pattern2)
        fun _ => return_0
  | some false =>
  -- line 148: else if (argc > 2 && strncmp(argv[1], "--cpio", 6) == 0)
  match guarded argv 2 1 fun a => decide (strncmp a "--cpio".toList 6 = 0) with
  | none => none
  | some true =>
    (argv[1]?).bind fun a1 =>
    (argv[0]?).map fun arg0 =>
      let cmd := a1.drop 6
      if cmd = [] then usage b arg0
      else
        let cmd := cmd.drop 1
        call (Event.cpio_commands cmd (argc - 2) (argv.drop 2))
          (w.cpio_commands cmd (argc - 2) (argv.drop 2))
          fun ret =>
            if ret ≠ 0 then usage b arg0 else return_0
  | some false =>
  -- line 153: else if (argc > 2 && strncmp(argv[1], "--dtb", 5) == 0)
  match guarded argv 2 1 fun a => decide (strncmp a "--dtb".toList 5 = 0) with
  | none => none
  | some true =>
    (argv[1]?).bind fun a1 =>
    (argv[0]?).map fun arg0 =>
      let cmd := a1.drop 5
      if cmd = [] then usage b arg0
      else
        let cmd := cmd.drop 1
        call (Event.dtb_commands cmd (argc - 2) (argv.drop 2))
          (w.dtb_commands cmd (argc - 2) (argv.drop 2))
          fun ret =>
            if ret ≠ 0 then usage b arg0 else return_0
  | some false =>
    -- line 158: else usage(argv[0]);
    (argv[0]?).map fun arg0 => usage b arg0

/-- The function `main`: the banner, `umask(0)`, then the dispatch chain. -/
def main (b : Build) (w : World) (argv : List CStr) : Run :=
  match dispatch b w argv with
  | some p => ⟨[Event.stderr (banner b), Event.umask 0] ++ p.trace, some p.status⟩
  | none => ⟨[Event.stderr (banner b), Event.umask 0], none⟩

/-- The characters a run writes to standard output, in order. -/
def stdout_of : List Event → CStr
  | [] => []
  | Event.stdout text :: es => text ++ stdout_of es
  | _ :: es => stdout_of es

/-- Whether an event is a call of `umask`. -/
def Event.is_umask : Event → Bool
  | Event.umask _ => true
  | _ => false

/-- Whether an event is a call of a collaborator: every event but a write to
stderr or stdout and the call of `umask`. -/
def Event.is_collaborator : Event → Bool
  | Event.stderr _ => false
  | Event.stdout _ => false
  | Event.umask _ => false
  | _ => true

/-- No event of the list is a call of `umask`. -/
def no_umask (es : List Event) : Bool := es.all fun e => !e.is_umask

/-- The status a parent process reads back with `wait`: the low eight bits of
the value the child gave to `exit`. -/
def wait_status (code : Int) : Int := code % 256

/-- Modelled from the spec: `unpack` is declared in `magiskboot.h` and defined
outside `main.c`; `main` calls it for its effect, discards any result and goes
on to `return 0`.  The spec (section 6, "`unpack <bootimg>` → same codes") and
the usage text ("Return value is the same as parse command") give it the exit
codes of `parse`: it parses the image and ends the process with the status of
`parse_img`. -/
def unpack_spec (parse_img : CStr → Outcome Int) (image : CStr) : Outcome Unit :=
  match parse_img image with
  | Outcome.ret status => Outcome.exit status
  | Outcome.exit status => Outcome.exit status

/-- The three classes of ramdisk that `cpio-test` tells apart (spec section 4.3,
`classify`). -/
inductive Classification where
  | stock
  | patched
  | other
  deriving DecidableEq

/-- The exit code documented for each class: 0 stock, 1 patched, 2 other. -/
def Classification.code : Classification → Int
  | Classification.stock => 0
  | Classification.patched => 1
  | Classification.other => 2

/-- Modelled from the spec: `cpio_commands` is declared in `magiskboot.h` and
defined outside `main.c`.  The spec (section 6, "`-test` (0 stock / 1 patched /
2 other)", exit codes being part of the contract) and the usage text ("Return
value: 0/stock 1/Magisk 2/other") make the class of the archive the exit code of
`cpio-test`.  `main` only tests the value `cpio_commands` returns against zero,
so the handler delivers the code by ending the process with it.  Its first
argument `argv[0]` is the archive; every other command is left to `handler`. -/
def cpio_commands_spec (classify : CStr → Classification)
    (handler : CStr → Int → List CStr → Outcome Int) :
    CStr → Int → List CStr → Outcome Int :=
  fun cmd argc argv =>
    if cmd = "test".toList then
      match argv with
      | archive :: _ => Outcome.exit (classify archive).code
      | [] => Outcome.ret 1
    else handler cmd argc argv

/-- Modelled from the spec: the constants of `magiskboot.h`, which is not part
of this development.  The file names are the ones the usage text and spec
section 6 list (`kernel`, `ramdisk.cpio`, `second`, `dtb`, `extra`,
`new-boot.img`); the version strings and the two tables are sample values, the
spec leaving the set of codecs open (section 9). -/
def sample_build (char_signed : Bool) : Build where
  MAGISK_VERSION := "16.0".toList
  MAGISK_VER_CODE := "1600".toList
  KERNEL_FILE := "kernel".toList
  RAMDISK_FILE := "ramdisk.cpio".toList
  SECOND_FILE := "second".toList
  DTB_FILE := "dtb".toList
  EXTRA_FILE := "extra".toList
  NEW_BOOT := "new-boot.img".toList
  SUP_LIST := [some "gzip".toList, some "xz".toList, none]
  SUP_EXT_LIST := [some "gz".toList, some "xz".toList, none]
  char_signed := char_signed

/-- The SHA-1 digest of the empty input, da39a3ee5e6b4b0d3255bfef95601890afd80709. -/
def sha1_empty : List Nat :=
  [0xda, 0x39, 0xa3, 0xee, 0x5e, 0x6b, 0x4b, 0x0d, 0x32, 0x55,
   0xbf, 0xef, 0x95, 0x60, 0x18, 0x90, 0xaf, 0xd8, 0x07, 0x09]

/-- A sample environment for concrete runs: every file is empty, `SHA1` of the
empty input is the canonical digest, `chromeos.img` parses with status 3 and
any other image with status 0, the cpio handler reports a usage error (1) for
every command, the dtb handler succeeds, and the other collaborators return. -/
def sample_world : World where
  mmap_ro := fun _ => Outcome.ret []
  SHA1 := fun data => if data = [] then sha1_empty else List.replicate 20 0
  parse_img := fun image =>
    Outcome.ret (if image = "chromeos.img".toList then 3 else 0)
  unpack := fun _ => Outcome.ret ()
  repack := fun _ _ => Outcome.ret ()
  decomp_file := fun _ _ => Outcome.ret ()
  comp_file := fun _ _ _ => Outcome.ret ()
  hexpatch := fun _ _ _ => Outcome.ret ()
  cpio_commands := fun _ _ _ => Outcome.ret 1
  dtb_commands := fun _ _ _ => Outcome.ret 0

/-- The sample environment with `unpack` as the spec describes it. -/
def unpack_world : World :=
  { sample_world with unpack := unpack_spec sample_world.parse_img }

/-- A sample classification: `patched.cpio` is patched, `other.cpio` is patched
by another framework, every other archive is stock. -/
def sample_classify (archive : CStr) : Classification :=
  if archive = "patched.cpio".toList then Classification.patched
  else if archive = "other.cpio".toList then Classification.other
  else Classification.stock

/-- The sample environment with the cpio handler as the spec describes it for
`test`. -/
def cpio_test_world : World :=
  { sample_world with
    cpio_commands := cpio_commands_spec sample_classify sample_world.cpio_commands }

/-- An argument vector written as a list of string literals. -/
def argv_of (args : List String) : List CStr := args.map String.toList

/-- The two-digit lowercase hexadecimal encoding of a sequence of bytes, in
order: the text the `sha1` command is documented to print before its newline. -/
def hex_encode : List Nat → CStr
  | [] => []
  | x :: xs => hex_digit (x / 16) :: hex_digit (x % 16) :: hex_encode xs

/-! ## Facts about the string functions -/

theorem strcmp_eq_zero_iff (a b : CStr) : strcmp a b = 0 ↔ a = b := by
  induction a generalizing b with
  | nil => cases b <;> simp [strcmp]
  | cons x xs ih =>
    cases b with
    | nil => simp [strcmp]
    | cons y ys =>
      by_cases hxy : x = y
      · simp [strcmp, hxy, ih]
      · by_cases hlt : x.toNat < y.toNat <;> simp [strcmp, hxy, hlt]

theorem strncmp_eq_zero_iff (a b : CStr) (n : Nat) :
    strncmp a b n = 0 ↔ a.take n = b.take n := by
  induction n generalizing a b with
  | zero => simp [strncmp]
  | succ k ih =>
    cases a with
    | nil => cases b <;> simp [strncmp]
    | cons x xs =>
      cases b with
      | nil => simp [strncmp]
      | cons y ys =>
        by_cases hxy : x = y
        · simp [strncmp, hxy, ih]
        · by_cases hlt : x.toNat < y.toNat <;> simp [strncmp, hxy, hlt]

/-- What `strchr` returns starts with the character looked for and is a suffix
of the string searched. -/
theorem strchr_some (s : CStr) (c : Char) (p : CStr) (h : strchr s c = some p) :
    ∃ pre tl, s = pre ++ c :: tl ∧ p = c :: tl := by
  induction s with
  | nil => simp [strchr] at h
  | cons x xs ih =>
    by_cases hx : x = c
    · subst hx
      simp only [strchr, if_true, Option.some.injEq] at h
      exact ⟨[], xs, rfl, h.symm⟩
    · simp only [strchr, hx, if_false] at h
      obtain ⟨pre, tl, hs, hp⟩ := ih h
      exact ⟨x :: pre, tl, by rw [hs]; rfl, hp⟩

/-- The method of the compress command is `gzip` or the text after an `=` of
`argv[1]`. -/
theorem method_of_cases (a1 : CStr) :
    method_of a1 = "gzip".toList ∨ ∃ pre, a1 = pre ++ '=' :: method_of a1 := by
  unfold method_of
  cases h : strchr a1 '=' with
  | none => exact Or.inl rfl
  | some p =>
    obtain ⟨pre, tl, hs, hp⟩ := strchr_some a1 '=' p h
    refine Or.inr ⟨pre, ?_⟩
    subst hp
    simpa using hs

/-! ## The shape of an argument vector -/

theorem args_shape (argv : List CStr) (x y : CStr) (h : 2 < argv.length)
    (h1 : argv[1]? = some x) (h2 : argv[2]? = some y) :
    ∃ a0 rest, argv = a0 :: x :: y :: rest := by
  match argv, h with
  | a0 :: a1 :: a2 :: rest, _ =>
    simp only [List.getElem?_cons_succ, List.getElem?_cons_zero, Option.some.injEq] at h1 h2
    exact ⟨a0, rest, by rw [h1, h2]⟩


/-! ## parse and unpack -/

/-- C1: with `argc > 2` and `argv[1] = "--parse"`, `main` calls
`parse_img(argv[2])` right after `umask(0)` and gives the value it returns to
`exit` unchanged; for the documented codes 0 to 5 that value is also what the
calling process reads back. -/
theorem parse_exit_status (b : Build) (w : World) (argv : List CStr) (image : CStr)
    (ret : Int) (hargc : 2 < argv.length) (h1 : argv[1]? = some "--parse".toList)
    (h2 : argv[2]? = some image) (hret : w.parse_img image = Outcome.ret ret) :
    main b w argv
        = ⟨[Event.stderr (banner b), Event.umask 0, Event.parse_img image], some ret⟩
      ∧ (0 ≤ ret → ret ≤ 5 → (main b w argv).status.map wait_status = some ret) := by
  obtain ⟨a0, rest, rfl⟩ := args_shape argv _ _ hargc h1 h2
  have hm : main b w (a0 :: "--parse".toList :: image :: rest)
        = ⟨[Event.stderr (banner b), Event.umask 0, Event.parse_img image], some ret⟩ := by
    simp [main, dispatch, guarded, strcmp_eq_zero_iff, call, hret]
  refine ⟨hm, ?_⟩
  intro h0 h5
  rw [hm]
  simp only [wait_status, Option.map_some', Option.some.injEq]
  omega

/-- A run of C1: `--parse chromeos.img` ends with the status 3 of `parse_img`. -/
theorem parse_exit_status_witness :
    2 < (argv_of ["magiskboot", "--parse", "chromeos.img"]).length
      ∧ (argv_of ["magiskboot", "--parse", "chromeos.img"])[1]? = some "--parse".toList
      ∧ (argv_of ["magiskboot", "--parse", "chromeos.img"])[2]?
          = some "chromeos.img".toList
      ∧ sample_world.parse_img "chromeos.img".toList = Outcome.ret 3
      ∧ (main (sample_build false) sample_world
            (argv_of ["magiskboot", "--parse", "chromeos.img"])
          = ⟨[Event.stderr (banner (sample_build false)), Event.umask 0,
              Event.parse_img "chromeos.img".toList], some 3⟩
        ∧ ((0 : Int) ≤ 3 → (3 : Int) ≤ 5 →
            (main (sample_build false) sample_world
              (argv_of ["magiskboot", "--parse", "chromeos.img"])).status.map
                wait_status = some 3)) :=
  ⟨by decide, rfl, rfl, rfl,
    parse_exit_status (sample_build false) sample_world
      (argv_of ["magiskboot", "--parse", "chromeos.img"])
      "chromeos.img".toList 3 (by decide) rfl rfl rfl⟩

/-- What `main` does with `--unpack`, whatever `unpack` is: if `unpack` ends the
process, its status is the exit status; if it returns, the exit status is 0. -/
theorem unpack_run (b : Build) (w : World) (a0 image : CStr) (rest : List CStr) :
    main b w (a0 :: "--unpack".toList :: image :: rest)
      = ⟨[Event.stderr (banner b), Event.umask 0, Event.unpack image],
          match w.unpack image with
          | Outcome.exit s => some s
          | Outcome.ret _ => some 0⟩ := by
  cases h : w.unpack image <;>
    simp [main, dispatch, guarded, strcmp_eq_zero_iff, call, h, return_0]

/-- What `main` does with `--parse`, whatever `parse_img` is. -/
theorem parse_run (b : Build) (w : World) (a0 image : CStr) (rest : List CStr) :
    main b w (a0 :: "--parse".toList :: image :: rest)
      = ⟨[Event.stderr (banner b), Event.umask 0, Event.parse_img image],
          match w.parse_img image with
          | Outcome.exit s => some s
          | Outcome.ret v => some v⟩ := by
  cases h : w.parse_img image <;>
    simp [main, dispatch, guarded, strcmp_eq_zero_iff, call, h]

/-- C2: when `unpack` is the function the spec describes (parse the image, end
the process with the status of `parse_img`), `--unpack <bootimg>` ends with a
defined exit status, and it is the exit status of `--parse <bootimg>` on the same
image. -/
theorem unpack_status_same_as_parse (b : Build) (w : World) (u p : List CStr)
    (image : CStr)
    (hu : 2 < u.length) (hu1 : u[1]? = some "--unpack".toList) (hu2 : u[2]? = some image)
    (hp : 2 < p.length) (hp1 : p[1]? = some "--parse".toList) (hp2 : p[2]? = some image)
    (hw : w.unpack image = unpack_spec w.parse_img image) :
    (main b w u).status = (main b w p).status
      ∧ ∃ code, (main b w u).status = some code := by
  obtain ⟨a0, rest, rfl⟩ := args_shape u _ _ hu hu1 hu2
  obtain ⟨a0', rest', rfl⟩ := args_shape p _ _ hp hp1 hp2
  rw [unpack_run, parse_run, hw]
  cases h : w.parse_img image <;> simp [unpack_spec, h]

/-- A run of C2: `--unpack chromeos.img` and `--parse chromeos.img` both end
with status 3. -/
theorem unpack_status_same_as_parse_witness :
    2 < (argv_of ["magiskboot", "--unpack", "chromeos.img"]).length
      ∧ (argv_of ["magiskboot", "--unpack", "chromeos.img"])[1]? = some "--unpack".toList
      ∧ (argv_of ["magiskboot", "--unpack", "chromeos.img"])[2]?
          = some "chromeos.img".toList
      ∧ 2 < (argv_of ["magiskboot", "--parse", "chromeos.img"]).length
      ∧ (argv_of ["magiskboot", "--parse", "chromeos.img"])[1]? = some "--parse".toList
      ∧ (argv_of ["magiskboot", "--parse", "chromeos.img"])[2]?
          = some "chromeos.img".toList
      ∧ unpack_world.unpack "chromeos.img".toList
          = unpack_spec unpack_world.parse_img "chromeos.img".toList
      ∧ ((main (sample_build false) unpack_world
            (argv_of ["magiskboot", "--unpack", "chromeos.img"])).status
          = (main (sample_build false) unpack_world
            (argv_of ["magiskboot", "--parse", "chromeos.img"])).status
        ∧ ∃ code, (main (sample_build false) unpack_world
            (argv_of ["magiskboot", "--unpack", "chromeos.img"])).status = some code)
      ∧ (main (sample_build false) unpack_world
            (argv_of ["magiskboot", "--unpack", "chromeos.img"])).status = some 3 :=
  ⟨by decide, rfl, rfl, by decide, rfl, rfl, rfl,
    unpack_status_same_as_parse (sample_build false) unpack_world
      (argv_of ["magiskboot", "--unpack", "chromeos.img"])
      (argv_of ["magiskboot", "--parse", "chromeos.img"])
      "chromeos.img".toList (by decide) rfl rfl (by decide) rfl rfl rfl,
    by decide⟩


/-! ## repack and compress -/

/-- C4: with `argv[1] = "--repack"` (and `argc > 2`), `repack` is called with
`argv[2]` as the original image; its output path is the constant `NEW_BOOT`
when `argc = 3` and `argv[3]` unchanged when `argc > 3`. -/
theorem repack_output_path (b : Build) (w : World) (argv : List CStr) (orig : CStr)
    (hargc : 2 < argv.length) (h1 : argv[1]? = some "--repack".toList)
    (h2 : argv[2]? = some orig) :
    (argv.length = 3 →
        (main b w argv).trace
          = [Event.stderr (banner b), Event.umask 0, Event.repack orig b.NEW_BOOT])
      ∧ (∀ out, 3 < argv.length → argv[3]? = some out →
        (main b w argv).trace
          = [Event.stderr (banner b), Event.umask 0, Event.repack orig out]) := by
  obtain ⟨a0, rest, rfl⟩ := args_shape argv _ _ hargc h1 h2
  constructor
  · intro hlen
    have hrest : rest = [] := by
      cases rest with
      | nil => rfl
      | cons x xs => simp at hlen
    subst hrest
    cases h : w.repack orig b.NEW_BOOT <;>
      simp [main, dispatch, guarded, strcmp_eq_zero_iff, call, h, return_0]
  · intro out _ h3
    cases rest with
    | nil => simp at h3
    | cons a3 rest =>
      simp only [List.getElem?_cons_succ, List.getElem?_cons_zero, Option.some.injEq] at h3
      subst h3
      have hlen : (3 : Int) < (rest.length : Int) + 1 + 1 + 1 + 1 := by omega
      cases h : w.repack orig a3 <;>
        simp [main, dispatch, guarded, strcmp_eq_zero_iff, call, h, return_0, hlen]

/-- A run of C4: `--repack boot.img` writes to `new-boot.img`. -/
theorem repack_output_path_witness :
    2 < (argv_of ["magiskboot", "--repack", "boot.img"]).length
      ∧ (argv_of ["magiskboot", "--repack", "boot.img"])[1]? = some "--repack".toList
      ∧ (argv_of ["magiskboot", "--repack", "boot.img"])[2]? = some "boot.img".toList
      ∧ (argv_of ["magiskboot", "--repack", "boot.img"]).length = 3
      ∧ (main (sample_build false) sample_world
            (argv_of ["magiskboot", "--repack", "boot.img"])).trace
          = [Event.stderr (banner (sample_build false)), Event.umask 0,
             Event.repack "boot.img".toList "new-boot.img".toList] :=
  ⟨by decide, rfl, rfl, rfl,
    (repack_output_path (sample_build false) sample_world
      (argv_of ["magiskboot", "--repack", "boot.img"]) "boot.img".toList
      (by decide) rfl rfl).1 rfl⟩

/-- C5: with `argc > 2` and `argv[1]` starting with `--compress`, `comp_file`
is called with input `argv[2]` and output `argv[3]` (present exactly when
`argc > 3`).  The method is `gzip` when `argv[1]` is exactly `--compress`, it is
`M` when `argv[1]` is `--compress=M`, and in every case it is either `gzip` or
the text after an `=` of `argv[1]`. -/
theorem compress_method (b : Build) (w : World) (argv : List CStr) (a1 infile : CStr)
    (hargc : 2 < argv.length) (h1 : argv[1]? = some a1) (h2 : argv[2]? = some infile) :
    (a1 = "--compress".toList →
        (main b w argv).trace
          = [Event.stderr (banner b), Event.umask 0,
             Event.comp_file "gzip".toList infile argv[3]?])
      ∧ (∀ M, a1 = "--compress=".toList ++ M →
        (main b w argv).trace
          = [Event.stderr (banner b), Event.umask 0, Event.comp_file M infile argv[3]?])
      ∧ (strncmp a1 "--compress".toList 10 = 0 →
        ∃ method,
          (main b w argv).trace
            = [Event.stderr (banner b), Event.umask 0,
               Event.comp_file method infile argv[3]?]
          ∧ (method = "gzip".toList ∨ ∃ pre, a1 = pre ++ '=' :: method)) := by
  obtain ⟨a0, rest, rfl⟩ := args_shape argv _ _ hargc h1 h2
  have key : strncmp a1 "--compress".toList 10 = 0 →
      (main b w (a0 :: a1 :: infile :: rest)).trace
        = [Event.stderr (banner b), Event.umask 0,
           Event.comp_file (method_of a1) infile (a0 :: a1 :: infile :: rest)[3]?] := by
    intro hpre
    rw [strncmp_eq_zero_iff] at hpre
    have hsplit : a1 = a1.take 10 ++ a1.drop 10 := (List.take_append_drop 10 a1).symm
    rw [hpre] at hsplit
    generalize a1.drop 10 = tl at hsplit
    subst hsplit
    cases rest with
    | nil =>
      cases h : w.comp_file (method_of ("--compress".toList.take 10 ++ tl)) infile none <;>
        simp [main, dispatch, guarded, strcmp_eq_zero_iff, strncmp_eq_zero_iff, call,
          return_0] <;> simp_all
    | cons a3 rest =>
      have hlen : (3 : Int) < (rest.length : Int) + 1 + 1 + 1 + 1 := by omega
      cases h : w.comp_file (method_of ("--compress".toList.take 10 ++ tl)) infile (some a3) <;>
        simp [main, dispatch, guarded, strcmp_eq_zero_iff, strncmp_eq_zero_iff, call,
          return_0, hlen] <;> simp_all
  refine ⟨?_, ?_, ?_⟩
  · intro ha
    rw [key (by rw [ha]; decide), ha]
    rfl
  · intro M ha
    have hm : method_of a1 = M := by
      rw [ha]
      simp [method_of, strchr]
    rw [key (by rw [ha, strncmp_eq_zero_iff]; simp), hm]
  · intro hpre
    exact ⟨method_of a1, key hpre, method_of_cases a1⟩


/-- A run of C5: `--compress=xz ramdisk.cpio out.xz` selects the method `xz`. -/
theorem compress_method_witness :
    2 < (argv_of ["magiskboot", "--compress=xz", "ramdisk.cpio", "out.xz"]).length
      ∧ (argv_of ["magiskboot", "--compress=xz", "ramdisk.cpio", "out.xz"])[1]?
          = some "--compress=xz".toList
      ∧ (argv_of ["magiskboot", "--compress=xz", "ramdisk.cpio", "out.xz"])[2]?
          = some "ramdisk.cpio".toList
      ∧ "--compress=xz".toList = "--compress=".toList ++ "xz".toList
      ∧ (main (sample_build false) sample_world
            (argv_of ["magiskboot", "--compress=xz", "ramdisk.cpio", "out.xz"])).trace
          = [Event.stderr (banner (sample_build false)), Event.umask 0,
             Event.comp_file "xz".toList "ramdisk.cpio".toList (some "out.xz".toList)] :=
  ⟨by decide, rfl, rfl, rfl,
    (compress_method (sample_build false) sample_world
      (argv_of ["magiskboot", "--compress=xz", "ramdisk.cpio", "out.xz"])
      "--compress=xz".toList "ramdisk.cpio".toList (by decide) rfl rfl).2.1
      "xz".toList rfl⟩

/-! ## The usage text -/

/-- The events of `usage(arg0)` one by one: the first `fprintf` with `arg0` in
place of `%s`, one `fprintf("%s ", ...)` per entry of `SUP_LIST`, the second
format string, the entries of `SUP_LIST` again, the last format string. -/
theorem usage_text_events (b : Build) (arg0 : CStr) :
    usage_text b arg0
      = Event.stderr ("Usage: ".toList ++ arg0 ++ usage_actions.toList)
        :: ((until_null b.SUP_LIST).map (fun m => Event.stderr (m ++ " ".toList))
          ++ Event.stderr usage_decompress.toList
            :: ((until_null b.SUP_LIST).map (fun m => Event.stderr (m ++ " ".toList))
              ++ [Event.stderr usage_tail.toList])) := by
  simp [usage_text]

/-- Every event of `usage` is a write to stderr. -/
theorem usage_text_stderr (b : Build) (arg0 : CStr) :
    ∀ e ∈ usage_text b arg0, ∃ text, e = Event.stderr text := by
  intro e he
  simp only [usage_text, List.mem_append, List.mem_map, List.mem_singleton] at he
  rcases he with (((he | ⟨m, _, he⟩) | he) | ⟨m, _, he⟩) | he
  all_goals first | exact ⟨_, he⟩ | exact ⟨_, he.symm⟩

/-- The function `usage` calls no collaborator. -/
theorem usage_text_no_collaborator (b : Build) (arg0 : CStr) :
    (usage_text b arg0).filter Event.is_collaborator = [] := by
  rw [List.filter_eq_nil_iff]
  intro e he
  obtain ⟨text, rfl⟩ := usage_text_stderr b arg0 e he
  simp [Event.is_collaborator]

/-! ## cpio and dtb commands -/

/-- What `main` does with `--cpio<x><cmd>`, whatever the handler is. -/
theorem cpio_run (b : Build) (w : World) (a0 a2 c : CStr) (x : Char) (rest : List CStr) :
    main b w (a0 :: ("--cpio".toList ++ x :: c) :: a2 :: rest)
      = match w.cpio_commands c ((rest.length : Int) + 1) (a2 :: rest) with
        | Outcome.exit s =>
          ⟨[Event.stderr (banner b), Event.umask 0,
            Event.cpio_commands c ((rest.length : Int) + 1) (a2 :: rest)], some s⟩
        | Outcome.ret v =>
          if v = 0 then
            ⟨[Event.stderr (banner b), Event.umask 0,
              Event.cpio_commands c ((rest.length : Int) + 1) (a2 :: rest)], some 0⟩
          else
            ⟨[Event.stderr (banner b), Event.umask 0,
              Event.cpio_commands c ((rest.length : Int) + 1) (a2 :: rest)]
              ++ usage_text b a0, some 1⟩ := by
  have hlen : ((rest.length : Int) + 1 + 1 + 1 - 2) = (rest.length : Int) + 1 := by omega
  cases h : w.cpio_commands c ((rest.length : Int) + 1) (a2 :: rest) with
  | exit s =>
    simp [main, dispatch, guarded, strcmp_eq_zero_iff, strncmp_eq_zero_iff, call, hlen, h]
  | ret v =>
    by_cases hv : v = 0 <;>
      simp [main, dispatch, guarded, strcmp_eq_zero_iff, strncmp_eq_zero_iff, call, hlen, h,
        hv, return_0, usage]

/-- What `main` does with `--dtb<x><cmd>`, whatever the handler is. -/
theorem dtb_run (b : Build) (w : World) (a0 a2 c : CStr) (x : Char) (rest : List CStr) :
    main b w (a0 :: ("--dtb".toList ++ x :: c) :: a2 :: rest)
      = match w.dtb_commands c ((rest.length : Int) + 1) (a2 :: rest) with
        | Outcome.exit s =>
          ⟨[Event.stderr (banner b), Event.umask 0,
            Event.dtb_commands c ((rest.length : Int) + 1) (a2 :: rest)], some s⟩
        | Outcome.ret v =>
          if v = 0 then
            ⟨[Event.stderr (banner b), Event.umask 0,
              Event.dtb_commands c ((rest.length : Int) + 1) (a2 :: rest)], some 0⟩
          else
            ⟨[Event.stderr (banner b), Event.umask 0,
              Event.dtb_commands c ((rest.length : Int) + 1) (a2 :: rest)]
              ++ usage_text b a0, some 1⟩ := by
  have hlen : ((rest.length : Int) + 1 + 1 + 1 - 2) = (rest.length : Int) + 1 := by omega
  cases h : w.dtb_commands c ((rest.length : Int) + 1) (a2 :: rest) with
  | exit s =>
    simp [main, dispatch, guarded, strcmp_eq_zero_iff, strncmp_eq_zero_iff, call, hlen, h]
  | ret v =>
    by_cases hv : v = 0 <;>
      simp [main, dispatch, guarded, strcmp_eq_zero_iff, strncmp_eq_zero_iff, call, hlen, h,
        hv, return_0, usage]


/-- The only collaborator `main` calls for `--cpio<x><cmd>` is the cpio handler,
once. -/
theorem cpio_run_calls (b : Build) (w : World) (a0 a2 c : CStr) (x : Char)
    (rest : List CStr) :
    (main b w (a0 :: ("--cpio".toList ++ x :: c) :: a2 :: rest)).trace.filter
        Event.is_collaborator
      = [Event.cpio_commands c ((rest.length : Int) + 1) (a2 :: rest)] := by
  rw [cpio_run]
  cases h : w.cpio_commands c ((rest.length : Int) + 1) (a2 :: rest) with
  | exit s => simp [Event.is_collaborator]
  | ret v =>
    by_cases hv : v = 0 <;>
      simp [hv, Event.is_collaborator, List.filter_append, usage_text_no_collaborator]

/-- The only collaborator `main` calls for `--dtb<x><cmd>` is the dtb handler,
once. -/
theorem dtb_run_calls (b : Build) (w : World) (a0 a2 c : CStr) (x : Char)
    (rest : List CStr) :
    (main b w (a0 :: ("--dtb".toList ++ x :: c) :: a2 :: rest)).trace.filter
        Event.is_collaborator
      = [Event.dtb_commands c ((rest.length : Int) + 1) (a2 :: rest)] := by
  rw [dtb_run]
  cases h : w.dtb_commands c ((rest.length : Int) + 1) (a2 :: rest) with
  | exit s => simp [Event.is_collaborator]
  | ret v =>
    by_cases hv : v = 0 <;>
      simp [hv, Event.is_collaborator, List.filter_append, usage_text_no_collaborator]

/-- A run that only prints the usage text calls no collaborator. -/
theorem usage_run_calls (b : Build) (arg0 : CStr) :
    ([Event.stderr (banner b), Event.umask 0] ++ usage_text b arg0).filter
        Event.is_collaborator = [] := by
  simp [Event.is_collaborator, List.filter_append, usage_text_no_collaborator]


/-- What `main` does when `argv[1]` is exactly `--cpio` or `--dtb`: the usage
text and exit status 1, no handler call. -/
theorem family_without_command (b : Build) (w : World) (a0 a1 : CStr) (rest : List CStr)
    (h : a1 = "--cpio".toList ∨ a1 = "--dtb".toList) :
    main b w (a0 :: a1 :: rest)
      = ⟨[Event.stderr (banner b), Event.umask 0] ++ usage_text b a0, some 1⟩ := by
  rcases h with rfl | rfl <;> cases rest <;>
    simp [main, dispatch, guarded, strcmp_eq_zero_iff, strncmp_eq_zero_iff, usage]

/-- C9: for the `--cpio` and the `--dtb` family alike, with `argc > 2` and
`argv[1]` the family prefix followed by `-` and a command `c`, the family
handler is the only collaborator called, exactly once, with `c`, `argc - 2` and
`argv + 2`; a return value of 0 gives exit status 0, any other return value
gives the usage text and exit status 1, and a handler that ends the process
itself gives its own status.  With `argv[1]` exactly the prefix, no collaborator
is called and the usage text and exit status 1 follow.  The usage text is the
sequence of writes to stderr of `usage`, starting with `Usage: ` and `argv[0]`;
it holds no call of a collaborator. -/
theorem family_handler_status (b : Build) (w : World) (argv : List CStr) (arg0 c : CStr)
    (h0 : argv[0]? = some arg0) :
    (2 < argv.length → argv[1]? = some ("--cpio-".toList ++ c) →
      (w.cpio_commands c ((argv.length : Int) - 2) (argv.drop 2) = Outcome.ret 0 →
        main b w argv
          = ⟨[Event.stderr (banner b), Event.umask 0,
              Event.cpio_commands c ((argv.length : Int) - 2) (argv.drop 2)], some 0⟩)
      ∧ (∀ v, v ≠ 0 →
        w.cpio_commands c ((argv.length : Int) - 2) (argv.drop 2) = Outcome.ret v →
        main b w argv
          = ⟨[Event.stderr (banner b), Event.umask 0,
              Event.cpio_commands c ((argv.length : Int) - 2) (argv.drop 2)]
              ++ usage_text b arg0, some 1⟩)
      ∧ (∀ s,
        w.cpio_commands c ((argv.length : Int) - 2) (argv.drop 2) = Outcome.exit s →
        main b w argv
          = ⟨[Event.stderr (banner b), Event.umask 0,
              Event.cpio_commands c ((argv.length : Int) - 2) (argv.drop 2)], some s⟩)
      ∧ (main b w argv).trace.filter Event.is_collaborator
          = [Event.cpio_commands c ((argv.length : Int) - 2) (argv.drop 2)])
    ∧ (2 < argv.length → argv[1]? = some ("--dtb-".toList ++ c) →
      (w.dtb_commands c ((argv.length : Int) - 2) (argv.drop 2) = Outcome.ret 0 →
        main b w argv
          = ⟨[Event.stderr (banner b), Event.umask 0,
              Event.dtb_commands c ((argv.length : Int) - 2) (argv.drop 2)], some 0⟩)
      ∧ (∀ v, v ≠ 0 →
        w.dtb_commands c ((argv.length : Int) - 2) (argv.drop 2) = Outcome.ret v →
        main b w argv
          = ⟨[Event.stderr (banner b), Event.umask 0,
              Event.dtb_commands c ((argv.length : Int) - 2) (argv.drop 2)]
              ++ usage_text b arg0, some 1⟩)
      ∧ (∀ s,
        w.dtb_commands c ((argv.length : Int) - 2) (argv.drop 2) = Outcome.exit s →
        main b w argv
          = ⟨[Event.stderr (banner b), Event.umask 0,
              Event.dtb_commands c ((argv.length : Int) - 2) (argv.drop 2)], some s⟩)
      ∧ (main b w argv).trace.filter Event.is_collaborator
          = [Event.dtb_commands c ((argv.length : Int) - 2) (argv.drop 2)])
    ∧ (argv[1]? = some "--cpio".toList ∨ argv[1]? = some "--dtb".toList →
        main b w argv
          = ⟨[Event.stderr (banner b), Event.umask 0] ++ usage_text b arg0, some 1⟩
        ∧ (main b w argv).trace.filter Event.is_collaborator = [])
    ∧ usage_text b arg0
        = Event.stderr ("Usage: ".toList ++ arg0 ++ usage_actions.toList)
          :: ((until_null b.SUP_LIST).map (fun m => Event.stderr (m ++ " ".toList))
            ++ Event.stderr usage_decompress.toList
              :: ((until_null b.SUP_LIST).map (fun m => Event.stderr (m ++ " ".toList))
                ++ [Event.stderr usage_tail.toList]))
    ∧ (∀ e ∈ usage_text b arg0, ∃ text, e = Event.stderr text)
    ∧ (usage_text b arg0).filter Event.is_collaborator = [] := by
  refine ⟨?_, ?_, ?_, usage_text_events b arg0, usage_text_stderr b arg0,
    usage_text_no_collaborator b arg0⟩
  · intro hargc h1
    match argv, hargc with
    | a0 :: a1 :: a2 :: rest, _ =>
      simp only [List.getElem?_cons_succ, List.getElem?_cons_zero, Option.some.injEq] at h0 h1
      subst h0 h1
      have hlen : (((a0 :: ("--cpio-".toList ++ c) :: a2 :: rest).length : Int) - 2)
          = (rest.length : Int) + 1 := by
        simp only [List.length_cons]; push_cast; omega
      have hrun := cpio_run b w a0 a2 c '-' rest
      have hcalls := cpio_run_calls b w a0 a2 c '-' rest
      have hname : "--cpio".toList ++ '-' :: c = "--cpio-".toList ++ c := by simp
      rw [hname] at hrun hcalls
      rw [hlen, List.drop_succ_cons, List.drop_succ_cons, List.drop_zero, hcalls, hrun]
      refine ⟨?_, ?_, ?_, rfl⟩
      · intro hret
        rw [hret]
        simp
      · intro v hv hret
        rw [hret]
        simp [hv]
      · intro s hret
        rw [hret]
  · intro hargc h1
    match argv, hargc with
    | a0 :: a1 :: a2 :: rest, _ =>
      simp only [List.getElem?_cons_succ, List.getElem?_cons_zero, Option.some.injEq] at h0 h1
      subst h0 h1
      have hlen : (((a0 :: ("--dtb-".toList ++ c) :: a2 :: rest).length : Int) - 2)
          = (rest.length : Int) + 1 := by
        simp only [List.length_cons]; push_cast; omega
      have hrun := dtb_run b w a0 a2 c '-' rest
      have hcalls := dtb_run_calls b w a0 a2 c '-' rest
      have hname : "--dtb".toList ++ '-' :: c = "--dtb-".toList ++ c := by simp
      rw [hname] at hrun hcalls
      rw [hlen, List.drop_succ_cons, List.drop_succ_cons, List.drop_zero, hcalls, hrun]
      refine ⟨?_, ?_, ?_, rfl⟩
      · intro hret
        rw [hret]
        simp
      · intro v hv hret
        rw [hret]
        simp [hv]
      · intro s hret
        rw [hret]
  · intro h1
    match argv with
    | [] => simp at h0
    | [_] => simp at h1
    | a0 :: a1 :: rest =>
      simp only [List.getElem?_cons_succ, List.getElem?_cons_zero, Option.some.injEq] at h0 h1
      subst h0
      rw [family_without_command b w a0 a1 rest h1]
      exact ⟨rfl, usage_run_calls b a0⟩

/-- A run of C9: `--cpio-mkdir ramdisk.cpio`, the handler returning 1, calls the
handler once and ends with the usage text, written out here for the sample
tables, and status 1. -/
theorem family_handler_status_witness :
    (argv_of ["magiskboot", "--cpio-mkdir", "ramdisk.cpio"])[0]? = some "magiskboot".toList
      ∧ 2 < (argv_of ["magiskboot", "--cpio-mkdir", "ramdisk.cpio"]).length
      ∧ (argv_of ["magiskboot", "--cpio-mkdir", "ramdisk.cpio"])[1]?
          = some ("--cpio-".toList ++ "mkdir".toList)
      ∧ (1 : Int) ≠ 0
      ∧ sample_world.cpio_commands "mkdir".toList
          (((argv_of ["magiskboot", "--cpio-mkdir", "ramdisk.cpio"]).length : Int) - 2)
          ((argv_of ["magiskboot", "--cpio-mkdir", "ramdisk.cpio"]).drop 2) = Outcome.ret 1
      ∧ main (sample_build false) sample_world
          (argv_of ["magiskboot", "--cpio-mkdir", "ramdisk.cpio"])
        = ⟨[Event.stderr (banner (sample_build false)), Event.umask 0,
            Event.cpio_commands "mkdir".toList
              (((argv_of ["magiskboot", "--cpio-mkdir", "ramdisk.cpio"]).length : Int) - 2)
              ((argv_of ["magiskboot", "--cpio-mkdir", "ramdisk.cpio"]).drop 2)]
            ++ usage_text (sample_build false) "magiskboot".toList, some 1⟩
      ∧ main (sample_build false) sample_world
          (argv_of ["magiskboot", "--cpio-mkdir", "ramdisk.cpio"])
        = ⟨[Event.stderr "MagiskBoot v16.0(1600) (by topjohnwu) - Boot Image Modification Tool\n\n".toList,
            Event.umask 0,
            Event.cpio_commands "mkdir".toList 1 ["ramdisk.cpio".toList],
            Event.stderr ("Usage: magiskboot".toList ++ usage_actions.toList),
            Event.stderr "gzip ".toList,
            Event.stderr "xz ".toList,
            Event.stderr usage_decompress.toList,
            Event.stderr "gzip ".toList,
            Event.stderr "xz ".toList,
            Event.stderr usage_tail.toList], some 1⟩
      ∧ (main (sample_build false) sample_world
          (argv_of ["magiskboot", "--cpio-mkdir", "ramdisk.cpio"])).trace.filter
            Event.is_collaborator
        = [Event.cpio_commands "mkdir".toList 1 ["ramdisk.cpio".toList]]
      ∧ usage_actions.toList.take 60
          = " <action> [args...]\n\nSupported actions:\n --parse <bootimg>\n ".toList
      ∧ usage_decompress
          = "\n\n --decompress <infile> [outfile]\n  Detect method and decompress <infile>, optionally to [outfile]\n  <infile>/[outfile] can be '-' to be STDIN/STDOUT\n  Supported methods: "
      ∧ usage_tail
          = "\n\n --sha1 <file>\n  Print the SHA1 checksum for <file>\n\n --cleanup\n  Cleanup the current working directory\n\n" :=
  ⟨rfl, by decide, rfl, by decide, rfl,
    ((family_handler_status (sample_build false) sample_world
      (argv_of ["magiskboot", "--cpio-mkdir", "ramdisk.cpio"])
      "magiskboot".toList "mkdir".toList rfl).1 (by decide) rfl).2.1 1 (by decide) rfl,
    rfl, by decide, by decide, rfl, by decide⟩

/-- C6: when the cpio handler is the function the spec describes (for `test` it
ends the process with the class of the archive: 0 stock, 1 patched, 2 other),
`--cpio-test <archive>` calls the handler with command `test` and nothing else,
prints no usage text, and the exit status is the class of the archive. -/
theorem cpio_test_exit_status (b : Build) (w : World)
    (classify : CStr → Classification) (handler : CStr → Int → List CStr → Outcome Int)
    (argv : List CStr) (archive : CStr)
    (hargc : 2 < argv.length) (h1 : argv[1]? = some "--cpio-test".toList)
    (h2 : argv[2]? = some archive)
    (hw : w.cpio_commands = cpio_commands_spec classify handler) :
    main b w argv
        = ⟨[Event.stderr (banner b), Event.umask 0,
            Event.cpio_commands "test".toList ((argv.length : Int) - 2) (argv.drop 2)],
           some (classify archive).code⟩
      ∧ (classify archive = Classification.stock → (main b w argv).status = some 0)
      ∧ (classify archive = Classification.patched → (main b w argv).status = some 1)
      ∧ (classify archive = Classification.other → (main b w argv).status = some 2) := by
  obtain ⟨a0, rest, rfl⟩ := args_shape argv _ _ hargc h1 h2
  have hlen : (((a0 :: "--cpio-test".toList :: archive :: rest).length : Int) - 2)
      = (rest.length : Int) + 1 := by
    simp only [List.length_cons]; push_cast; omega
  have hrun := cpio_run b w a0 archive "test".toList '-' rest
  have hname : "--cpio".toList ++ '-' :: "test".toList = "--cpio-test".toList := by decide
  rw [hname, hw] at hrun
  have hm : main b w (a0 :: "--cpio-test".toList :: archive :: rest)
      = ⟨[Event.stderr (banner b), Event.umask 0,
          Event.cpio_commands "test".toList
            (((a0 :: "--cpio-test".toList :: archive :: rest).length : Int) - 2)
            ((a0 :: "--cpio-test".toList :: archive :: rest).drop 2)],
         some (classify archive).code⟩ := by
    rw [hlen, List.drop_succ_cons, List.drop_succ_cons, List.drop_zero, hrun]
    simp [cpio_commands_spec]
  refine ⟨hm, ?_, ?_, ?_⟩ <;> intro hc <;> rw [hm, hc] <;> rfl

/-- A run of C6: `--cpio-test other.cpio` ends with status 2. -/
theorem cpio_test_exit_status_witness :
    2 < (argv_of ["magiskboot", "--cpio-test", "other.cpio"]).length
      ∧ (argv_of ["magiskboot", "--cpio-test", "other.cpio"])[1]?
          = some "--cpio-test".toList
      ∧ (argv_of ["magiskboot", "--cpio-test", "other.cpio"])[2]?
          = some "other.cpio".toList
      ∧ cpio_test_world.cpio_commands
          = cpio_commands_spec sample_classify sample_world.cpio_commands
      ∧ sample_classify "other.cpio".toList = Classification.other
      ∧ (main (sample_build false) cpio_test_world
            (argv_of ["magiskboot", "--cpio-test", "other.cpio"])).status = some 2 :=
  ⟨by decide, rfl, rfl, rfl, by decide,
    (cpio_test_exit_status (sample_build false) cpio_test_world sample_classify
      sample_world.cpio_commands
      (argv_of ["magiskboot", "--cpio-test", "other.cpio"]) "other.cpio".toList
      (by decide) rfl rfl rfl).2.2.2 (by decide)⟩


/-! ## cleanup and the umask -/

/-- C7: with `argc > 1` and `argv[1] = "--cleanup"`, `main` unlinks
`KERNEL_FILE`, `RAMDISK_FILE`, `RAMDISK_FILE ".raw"`, `SECOND_FILE`, `DTB_FILE`,
`EXTRA_FILE` and then `RAMDISK_FILE "." ext` for every entry `ext` of
`SUP_EXT_LIST` before its NULL terminator, in this order; it calls nothing else
after `umask(0)` and the notice on stderr, and exits with status 0. -/
theorem cleanup_unlinks (b : Build) (w : World) (argv : List CStr)
    (hargc : 1 < argv.length) (h1 : argv[1]? = some "--cleanup".toList) :
    main b w argv
      = ⟨[Event.stderr (banner b), Event.umask 0,
          Event.stderr "Cleaning up...\n\n".toList,
          Event.unlink b.KERNEL_FILE,
          Event.unlink b.RAMDISK_FILE,
          Event.unlink (b.RAMDISK_FILE ++ ".raw".toList),
          Event.unlink b.SECOND_FILE,
          Event.unlink b.DTB_FILE,
          Event.unlink b.EXTRA_FILE]
          ++ (until_null b.SUP_EXT_LIST).map
               (fun ext => Event.unlink (b.RAMDISK_FILE ++ ".".toList ++ ext)),
         some 0⟩ := by
  match argv, hargc with
  | a0 :: a1 :: rest, _ =>
    simp only [List.getElem?_cons_succ, List.getElem?_cons_zero, Option.some.injEq] at h1
    subst h1
    simp [main, dispatch, guarded, strcmp_eq_zero_iff]

/-- A run of C7: `--cleanup` with the sample tables unlinks eight files. -/
theorem cleanup_unlinks_witness :
    1 < (argv_of ["magiskboot", "--cleanup"]).length
      ∧ (argv_of ["magiskboot", "--cleanup"])[1]? = some "--cleanup".toList
      ∧ main (sample_build false) sample_world (argv_of ["magiskboot", "--cleanup"])
        = ⟨[Event.stderr (banner (sample_build false)), Event.umask 0,
            Event.stderr "Cleaning up...\n\n".toList,
            Event.unlink "kernel".toList,
            Event.unlink "ramdisk.cpio".toList,
            Event.unlink "ramdisk.cpio.raw".toList,
            Event.unlink "second".toList,
            Event.unlink "dtb".toList,
            Event.unlink "extra".toList,
            Event.unlink "ramdisk.cpio.gz".toList,
            Event.unlink "ramdisk.cpio.xz".toList],
           some 0⟩ :=
  ⟨by decide, rfl,
    cleanup_unlinks (sample_build false) sample_world (argv_of ["magiskboot", "--cleanup"])
      (by decide) rfl⟩

theorem no_umask_usage (b : Build) (arg0 : CStr) : no_umask (usage b arg0).trace = true := by
  simp [no_umask, usage, usage_text, Event.is_umask]

theorem no_umask_call {α : Type} (ev : Event) (o : Outcome α) (k : α → Proc)
    (hev : ev.is_umask = false) (hk : ∀ v, no_umask (k v).trace = true) :
    no_umask (call ev o k).trace = true := by
  cases o with
  | ret v =>
    have := hk v
    simp only [no_umask] at this
    simp [call, no_umask, hev, this]
  | exit s => simp [call, no_umask, hev]

/-- No branch of the dispatch chain calls `umask`. -/
theorem dispatch_no_umask (b : Build) (w : World) (argv : List CStr) (p : Proc)
    (h : dispatch b w argv = some p) : no_umask p.trace = true := by
  rcases argv with _ | ⟨a0, _ | ⟨a1, _ | ⟨a2, _ | ⟨a3, _ | ⟨a4, rest⟩⟩⟩⟩⟩
  all_goals
    simp only [dispatch, guarded, List.length_cons, List.length_nil, List.getElem?_cons_succ,
      List.getElem?_cons_zero, List.getElem?_nil, Option.map_some', Option.some_bind,
      Option.map_none', Option.none_bind, Nat.reduceAdd,
      Nat.reduceLT, Nat.lt_irrefl, if_true, if_false, reduceIte] at h
    repeat' split at h
    all_goals first
      | (simp at h; done)
      | (simp only [Option.map_some', Option.some.injEq] at h
         subst h
         first
           | exact no_umask_usage _ _
           | (apply no_umask_call
              · rfl
              · intro v
                first
                  | rfl
                  | (split <;> first | exact no_umask_usage _ _ | rfl))
           | simp [no_umask, Event.is_umask])

/-- C8: whatever the argument vector, the trace of `main` starts with the
banner on stderr and `umask(0)`; every call of a collaborator (`unlink`,
`mmap_ro`, `parse_img`, `unpack`, `repack`, `decomp_file`, `comp_file`,
`hexpatch`, `cpio_commands`, `dtb_commands`) comes after them, and no later
event is a call of `umask`. -/
theorem umask_first (b : Build) (w : World) (argv : List CStr) :
    ∃ rest, (main b w argv).trace = Event.stderr (banner b) :: Event.umask 0 :: rest
      ∧ ∀ e ∈ rest, ∀ mask, e ≠ Event.umask mask := by
  unfold main
  cases h : dispatch b w argv with
  | none => exact ⟨[], rfl, by simp⟩
  | some p =>
    refine ⟨p.trace, rfl, ?_⟩
    intro e he mask hmask
    have hno := dispatch_no_umask b w argv p h
    simp only [no_umask, List.all_eq_true] at hno
    have := hno e he
    rw [hmask] at this
    simp [Event.is_umask] at this


/-! ## Argument checks -/

/-- With at least `argv[0]` present, the dispatch chain never uses an `argv[i]`
with `i ≥ argc`. -/
theorem dispatch_defined (b : Build) (w : World) (argv : List CStr) (h : argv ≠ []) :
    dispatch b w argv ≠ none := by
  rcases argv with _ | ⟨a0, _ | ⟨a1, _ | ⟨a2, _ | ⟨a3, _ | ⟨a4, rest⟩⟩⟩⟩⟩
  · exact absurd rfl h
  all_goals
    simp only [dispatch, guarded, List.length_cons, List.length_nil, List.getElem?_cons_succ,
      List.getElem?_cons_zero, Option.map_some', Option.some_bind, Nat.reduceAdd,
      Nat.reduceLT, Nat.lt_irrefl, if_true, if_false, reduceIte]
    repeat' split
    all_goals simp_all

/-- What `main` does when no test of the chain holds for `argv[1]`. -/
theorem unsupported_action (b : Build) (w : World) (a0 a1 : CStr) (rest : List CStr)
    (hexact : a1 ∉ ["--cleanup".toList, "--sha1".toList, "--parse".toList,
      "--unpack".toList, "--repack".toList, "--decompress".toList, "--hexpatch".toList])
    (hcompress : a1.take 10 ≠ "--compress".toList)
    (hcpio : a1.take 6 ≠ "--cpio".toList) (hdtb : a1.take 5 ≠ "--dtb".toList) :
    main b w (a0 :: a1 :: rest)
      = ⟨[Event.stderr (banner b), Event.umask 0] ++ usage_text b a0, some 1⟩ := by
  simp only [List.mem_cons, List.mem_singleton, List.not_mem_nil, or_false, not_or] at hexact
  obtain ⟨h1, h2, h3, h4, h5, h6, h7⟩ := hexact
  simp at h1 h2 h3 h4 h5 h6 h7 hcompress hcpio hdtb
  simp [main, dispatch, guarded, strcmp_eq_zero_iff, strncmp_eq_zero_iff, usage, h1, h2, h3,
    h4, h5, h6, h7, hcompress, hcpio, hdtb]

/-- C10: with `argc ≥ 1`, `main` never uses an `argv[i]` with `i ≥ argc` (the
run has a defined exit status), and in each of these cases it calls no
collaborator, prints the usage text and exits with status 1: `argc ≤ 2` with
`argv[1]` not `--cleanup`; `argv[1] = "--hexpatch"` with `argc ≤ 4`; `argv[1]`
passing none of the tests of the chain.  The usage text is the sequence of
writes to stderr of `usage`, starting with `Usage: ` and `argv[0]`; it holds no
call of a collaborator. -/
theorem usage_on_missing_arguments (b : Build) (w : World) (argv : List CStr) (arg0 : CStr)
    (h0 : argv[0]? = some arg0) :
    (∃ code, (main b w argv).status = some code)
      ∧ (argv.length ≤ 2 → argv[1]? ≠ some "--cleanup".toList →
          main b w argv
            = ⟨[Event.stderr (banner b), Event.umask 0] ++ usage_text b arg0, some 1⟩
          ∧ (main b w argv).trace.filter Event.is_collaborator = [])
      ∧ (argv.length ≤ 4 → argv[1]? = some "--hexpatch".toList →
          main b w argv
            = ⟨[Event.stderr (banner b), Event.umask 0] ++ usage_text b arg0, some 1⟩
          ∧ (main b w argv).trace.filter Event.is_collaborator = [])
      ∧ ((∀ a1, argv[1]? = some a1 →
            a1 ∉ ["--cleanup".toList, "--sha1".toList, "--parse".toList, "--unpack".toList,
              "--repack".toList, "--decompress".toList, "--hexpatch".toList]
            ∧ a1.take 10 ≠ "--compress".toList
            ∧ a1.take 6 ≠ "--cpio".toList
            ∧ a1.take 5 ≠ "--dtb".toList) →
          main b w argv
            = ⟨[Event.stderr (banner b), Event.umask 0] ++ usage_text b arg0, some 1⟩
          ∧ (main b w argv).trace.filter Event.is_collaborator = [])
      ∧ usage_text b arg0
          = Event.stderr ("Usage: ".toList ++ arg0 ++ usage_actions.toList)
            :: ((until_null b.SUP_LIST).map (fun m => Event.stderr (m ++ " ".toList))
              ++ Event.stderr usage_decompress.toList
                :: ((until_null b.SUP_LIST).map (fun m => Event.stderr (m ++ " ".toList))
                  ++ [Event.stderr usage_tail.toList]))
      ∧ (∀ e ∈ usage_text b arg0, ∃ text, e = Event.stderr text)
      ∧ (usage_text b arg0).filter Event.is_collaborator = [] := by
  have husage : ∀ r : Run,
      r = ⟨[Event.stderr (banner b), Event.umask 0] ++ usage_text b arg0, some 1⟩ →
      r = ⟨[Event.stderr (banner b), Event.umask 0] ++ usage_text b arg0, some 1⟩
        ∧ r.trace.filter Event.is_collaborator = [] := by
    intro r hr
    refine ⟨hr, ?_⟩
    rw [hr]
    exact usage_run_calls b arg0
  refine ⟨?_, ?_, ?_, ?_, usage_text_events b arg0, usage_text_stderr b arg0,
    usage_text_no_collaborator b arg0⟩
  · have hne : argv ≠ [] := by
      intro hnil
      rw [hnil] at h0
      simp at h0
    have hd := dispatch_defined b w argv hne
    unfold main
    cases h : dispatch b w argv with
    | none => exact absurd h hd
    | some p => exact ⟨p.status, rfl⟩
  · intro hlen h1
    apply husage
    match argv, hlen with
    | [], _ => simp at h0
    | [a0], _ =>
      simp only [List.getElem?_cons_zero, Option.some.injEq] at h0
      subst h0
      simp [main, dispatch, guarded, usage]
    | [a0, a1], _ =>
      simp only [List.getElem?_cons_succ, List.getElem?_cons_zero, Option.some.injEq,
        ne_eq] at h0 h1
      subst h0
      simp at h1
      simp [main, dispatch, guarded, strcmp_eq_zero_iff, usage, h1]
  · intro hlen h1
    apply husage
    match argv, hlen with
    | [], _ => simp at h0
    | [a0], _ => simp at h1
    | [a0, a1], _ =>
      simp only [List.getElem?_cons_succ, List.getElem?_cons_zero, Option.some.injEq] at h0 h1
      subst h0 h1
      simp [main, dispatch, guarded, strcmp_eq_zero_iff, strncmp_eq_zero_iff, usage]
    | [a0, a1, a2], _ =>
      simp only [List.getElem?_cons_succ, List.getElem?_cons_zero, Option.some.injEq] at h0 h1
      subst h0 h1
      simp [main, dispatch, guarded, strcmp_eq_zero_iff, strncmp_eq_zero_iff, usage]
    | [a0, a1, a2, a3], _ =>
      simp only [List.getElem?_cons_succ, List.getElem?_cons_zero, Option.some.injEq] at h0 h1
      subst h0 h1
      simp [main, dispatch, guarded, strcmp_eq_zero_iff, strncmp_eq_zero_iff, usage]
  · intro hno
    apply husage
    match argv with
    | [] => simp at h0
    | [a0] =>
      simp only [List.getElem?_cons_zero, Option.some.injEq] at h0
      subst h0
      simp [main, dispatch, guarded, usage]
    | a0 :: a1 :: rest =>
      simp only [List.getElem?_cons_zero, Option.some.injEq] at h0
      subst h0
      obtain ⟨hexact, hcompress, hcpio, hdtb⟩ := hno a1 (by simp)
      exact unsupported_action b w a0 a1 rest hexact hcompress hcpio hdtb

/-- A run of C10: `--hexpatch` with two further arguments only calls no
collaborator and ends with the usage text, written out here for the sample
tables, and status 1. -/
theorem usage_on_missing_arguments_witness :
    (argv_of ["magiskboot", "--hexpatch", "boot.img", "0011"])[0]? = some "magiskboot".toList
      ∧ (argv_of ["magiskboot", "--hexpatch", "boot.img", "0011"]).length ≤ 4
      ∧ (argv_of ["magiskboot", "--hexpatch", "boot.img", "0011"])[1]?
          = some "--hexpatch".toList
      ∧ (main (sample_build false) sample_world
          (argv_of ["magiskboot", "--hexpatch", "boot.img", "0011"])
        = ⟨[Event.stderr (banner (sample_build false)), Event.umask 0]
            ++ usage_text (sample_build false) "magiskboot".toList, some 1⟩
        ∧ (main (sample_build false) sample_world
            (argv_of ["magiskboot", "--hexpatch", "boot.img", "0011"])).trace.filter
              Event.is_collaborator = [])
      ∧ main (sample_build false) sample_world
          (argv_of ["magiskboot", "--hexpatch", "boot.img", "0011"])
        = ⟨[Event.stderr "MagiskBoot v16.0(1600) (by topjohnwu) - Boot Image Modification Tool\n\n".toList,
            Event.umask 0,
            Event.stderr ("Usage: magiskboot".toList ++ usage_actions.toList),
            Event.stderr "gzip ".toList,
            Event.stderr "xz ".toList,
            Event.stderr usage_decompress.toList,
            Event.stderr "gzip ".toList,
            Event.stderr "xz ".toList,
            Event.stderr usage_tail.toList], some 1⟩
      ∧ usage_actions.toList.take 60
          = " <action> [args...]\n\nSupported actions:\n --parse <bootimg>\n ".toList
      ∧ usage_decompress
          = "\n\n --decompress <infile> [outfile]\n  Detect method and decompress <infile>, optionally to [outfile]\n  <infile>/[outfile] can be '-' to be STDIN/STDOUT\n  Supported methods: "
      ∧ usage_tail
          = "\n\n --sha1 <file>\n  Print the SHA1 checksum for <file>\n\n --cleanup\n  Cleanup the current working directory\n\n" :=
  ⟨rfl, by decide, rfl,
    (usage_on_missing_arguments (sample_build false) sample_world
      (argv_of ["magiskboot", "--hexpatch", "boot.img", "0011"]) "magiskboot".toList
      rfl).2.2.1 (by decide) rfl,
    rfl, by decide, rfl, by decide⟩


/-! ## sha1 -/

theorem printf_02x_byte (x : Nat) (hx : x < 256) :
    printf_02x (x : Int) = [hex_digit (x / 16), hex_digit (x % 16)] := by
  have h1 : ((x : Int) % 4294967296).toNat = x := by omega
  unfold printf_02x
  simp only [h1]
  by_cases h16 : x < 16
  · have hq : x / 16 = 0 := by omega
    have hr : x % 16 = x := by omega
    simp [to_hex, h16, hq, hr, hex_digit]
  · have hq : x / 16 < 16 := by omega
    simp [to_hex, h16, hq]

theorem stdout_of_append (xs ys : List Event) :
    stdout_of (xs ++ ys) = stdout_of xs ++ stdout_of ys := by
  induction xs with
  | nil => rfl
  | cons e es ih => cases e <;> simp [stdout_of, ih]

/-- The loop `for (i = 0; i < n; ++i) printf("%02x", sha1[i])` over a buffer
whose first `n` bytes are `digest`, when plain `char` is unsigned. -/
theorem stdout_of_hex_loop (b : Build) (hb : b.char_signed = false) (digest : List Nat)
    (hbyte : ∀ x ∈ digest, x < 256) :
    stdout_of ((List.range digest.length).map
        (fun i => Event.stdout (printf_02x (char_value b (digest.getD i 0)))))
      = hex_encode digest := by
  induction digest with
  | nil => rfl
  | cons x xs ih =>
    have hx : x < 256 := hbyte x (List.mem_cons_self x xs)
    have hxs : ∀ y ∈ xs, y < 256 := fun y hy => hbyte y (List.mem_cons_of_mem x hy)
    have hmod : x % 256 = x := Nat.mod_eq_of_lt hx
    rw [List.length_cons, List.range_succ_eq_map, List.map_cons, List.map_map]
    have hfun : ((fun i => Event.stdout (printf_02x (char_value b ((x :: xs).getD i 0))))
          ∘ Nat.succ)
        = fun i => Event.stdout (printf_02x (char_value b (xs.getD i 0))) := by
      funext i
      simp
    rw [hfun]
    have hcast : ((x : Int) % 256) = (x : Int) := by omega
    simp only [stdout_of, ih hxs, hex_encode]
    simp [char_value, hb, hcast, printf_02x_byte x hx]

/-- On a target whose plain `char` is unsigned, `--sha1 <file>` prints the
two-digit lowercase hexadecimal encoding of the 20 digest bytes, then a
newline. -/
theorem sha1_unsigned_char_output (b : Build) (w : World) (argv : List CStr)
    (file : CStr) (data : List Nat) (hb : b.char_signed = false)
    (hargc : 2 < argv.length) (h1 : argv[1]? = some "--sha1".toList)
    (h2 : argv[2]? = some file) (hmap : w.mmap_ro file = Outcome.ret data)
    (hlen : (w.SHA1 data).length = 20) (hbyte : ∀ x ∈ w.SHA1 data, x < 256) :
    stdout_of (main b w argv).trace = hex_encode (w.SHA1 data) ++ ['\n']
      ∧ (main b w argv).status = some 0 := by
  obtain ⟨a0, rest, rfl⟩ := args_shape argv _ _ hargc h1 h2
  have hloop := stdout_of_hex_loop b hb (w.SHA1 data) hbyte
  rw [hlen] at hloop
  have hm : main b w (a0 :: "--sha1".toList :: file :: rest)
      = ⟨[Event.stderr (banner b), Event.umask 0, Event.mmap_ro file, Event.SHA1 data]
          ++ ((List.range 20).map
              (fun i => Event.stdout (printf_02x (char_value b ((w.SHA1 data).getD i 0))))
            ++ [Event.stdout ['\n'], Event.munmap]), some 0⟩ := by
    simp [main, dispatch, guarded, strcmp_eq_zero_iff, call, hmap]
  rw [hm]
  refine ⟨?_, rfl⟩
  simp only [stdout_of_append, hloop]
  simp [stdout_of]

/-- C3 (the code at the failing input): built for a target whose plain `char`
is signed, `--sha1` on a zero-length file, whose digest is
da39a3ee5e6b4b0d3255bfef95601890afd80709, prints 94 characters before the
newline: every digest byte of value 0x80 or above comes out sign-extended, as
eight hexadecimal digits starting with `ffffff`. -/
theorem sha1_signed_char_output :
    stdout_of (main (sample_build true) sample_world
        (argv_of ["magiskboot", "--sha1", "empty"])).trace
      = ("ffffffda39ffffffa3ffffffee5e6b4b0d3255ffffffbfffffffefffffff956018"
          ++ "ffffff90ffffffafffffffd80709\n").toList
    ∧ (stdout_of (main (sample_build true) sample_world
        (argv_of ["magiskboot", "--sha1", "empty"])).trace).length = 95
    ∧ stdout_of (main (sample_build false) sample_world
        (argv_of ["magiskboot", "--sha1", "empty"])).trace
      = "da39a3ee5e6b4b0d3255bfef95601890afd80709\n".toList := by
  refine ⟨?_, ?_, ?_⟩ <;> decide


end MagiskBoot
